import Mathlib

/-!
Shallow embedding of `mvconfig.go` (package mvconfig): a configuration
loader that fills the fields of a Go struct from environment variables,
an optional properties file, and per-field tag defaults.

Modelling conventions:
* `os.LookupEnv` and a loaded `properties.Properties` object are key→value
  lookups, modelled as `String → Option String`.
* Go errors are their message strings (`errors.New`); `none` is a nil error.
* A struct field is a `Field`: its declared name, its tag (the `mvenv`,
  `crit` and `def` keys, each possibly absent), its reflect kind, whether
  `reflect.Value.CanSet` holds, and its current value.
* `strconv.Atoi` and `strconv.ParseBool` are embedded from their Go
  semantics (64-bit platform).  `strconv.ParseFloat(value, 64)` is passed
  in as a parameter `pf`; no theorem below depends on its numeric
  behaviour, only on which field kinds invoke it.
* `fmt.Println` debug output (src line 132) is a side effect with no
  bearing on values or errors; it is not modelled.
-/

set_option autoImplicit false

namespace Mvconfig

/-- The three struct-tag keys read by the package (src lines 102, 105, 112):
`mvenv`, `crit` and `def`.  `none` models a key absent from the tag,
`some v` models `key:"v"` (`reflect.StructTag.Lookup`). -/
structure GoTag where
  mvenv : Option String
  crit : Option String
  defv : Option String
  deriving Repr, DecidableEq

/-- The reflect kinds distinguished by `manageFields` (src lines 170-194);
`other` stands for every remaining `reflect.Kind`. -/
inductive Kind where
  | string
  | int
  | int8
  | int16
  | int32
  | int64
  | bool
  | float32
  | float64
  | other
  deriving Repr, DecidableEq

/-- The value stored in a struct field. -/
inductive GoValue where
  | str : String → GoValue
  | intv : Int → GoValue
  | boolv : Bool → GoValue
  | floatv : Float → GoValue
  | zero : GoValue
  deriving Repr

/-- One field of the target struct: `reflect.StructField` metadata plus the
field's current contents and settability. -/
structure Field where
  name : String
  tag : GoTag
  kind : Kind
  canSet : Bool
  value : GoValue
  deriving Repr

/-- The process environment as a lookup (`os.LookupEnv`). -/
abbrev EnvSource := String → Option String

/-- A loaded properties object as a lookup (`props.Get`). -/
abbrev PropsSource := String → Option String

/-- src lines 58-63. -/
structure envTags where
  Name : String
  Critical : Bool
  HasDefault : Bool
  Default : String
  deriving Repr, DecidableEq

/-- Go `strings.ToLower`, character by character (`Char.toLower` lowers the
ASCII range, which is all the comparisons below ever distinguish). -/
def goToLower (s : String) : String :=
  String.mk (s.data.map Char.toLower)

/-- src lines 95-118, `getTags`: collect the tag values of one field.
The Go function returns an `error` that is always nil; the pair's second
component models it. -/
def getTags (f : Field) : envTags × Option String :=
  let e : envTags := { Name := f.name, Critical := false, HasDefault := false, Default := "" }
  let e :=
    match f.tag.mvenv with
    | some value => { e with Name := value }
    | none => e
  let e :=
    match f.tag.crit with
    | some c =>
      let c := goToLower c
      if c = "true" ∨ c = "y" ∨ c = "t" then { e with Critical := true } else e
    | none => e
  let e :=
    match f.tag.defv with
    | some defval => { e with HasDefault := true, Default := defval }
    | none => e
  (e, none)

/-- src lines 125-128: the name actually queried against the sources. -/
def effectiveName (pfx name : String) : String :=
  if pfx ≠ "" then pfx ++ "_" ++ name else name

/-- src lines 137-141 read the properties source only when `props != nil`;
a nil source and a missing key fall through identically. -/
def propsGet (props : Option PropsSource) (name : String) : Option String :=
  match props with
  | some p => p name
  | none => none

/-- src lines 123-155, `getEnvValue`: environment first, then properties,
then the declared default, then the critical-field error; otherwise skip.
Result is `(value, error, ok)` as in the Go signature. -/
def getEnvValue (eTags : envTags) (props : Option PropsSource) (env : EnvSource)
    (pfx : String) : String × Option String × Bool :=
  let name := effectiveName pfx eTags.Name
  match env name with
  | some value => (value, none, true)
  | none =>
    match propsGet props name with
    | some value => (value, none, true)
    | none =>
      if eTags.HasDefault then
        (eTags.Default, none, true)
      else if eTags.Critical then
        ("", some ("Critical Config field " ++ name ++ " missing from the environment"), false)
      else
        ("", none, false)

/-- Value of a list of ASCII decimal digits, most significant first. -/
def digitsVal (cs : List Char) : Nat :=
  cs.foldl (fun n c => n * 10 + (c.toNat - Char.toNat '0')) 0

/-- Go `strconv.Atoi` (= `ParseInt(s, 10, 0)` on a 64-bit platform): one
optional leading sign, then one or more ASCII decimal digits; fails on an
empty digit string, any other character, or a value outside int64. -/
def Atoi (s : String) : Option Int :=
  let cs := s.data
  let signed :=
    match cs with
    | '+' :: rest => (false, rest)
    | '-' :: rest => (true, rest)
    | _ => (false, cs)
  let neg := signed.1
  let digits := signed.2
  if digits.isEmpty || !(digits.all Char.isDigit) then
    none
  else
    let n := digitsVal digits
    if neg then
      if n ≤ 2 ^ 63 then some (-(n : Int)) else none
    else
      if n ≤ 2 ^ 63 - 1 then some ((n : Int)) else none

/-- Go `strconv.ParseBool`: exactly these twelve strings are accepted. -/
def ParseBool (s : String) : Option Bool :=
  if s = "1" ∨ s = "t" ∨ s = "T" ∨ s = "TRUE" ∨ s = "true" ∨ s = "True" then
    some true
  else if s = "0" ∨ s = "f" ∨ s = "F" ∨ s = "FALSE" ∨ s = "false" ∨ s = "False" then
    some false
  else
    none

/-- `reflect.Value.SetInt` stores `int64(val)`, truncating two's-complement
to the field's width without error. -/
def setIntValue (k : Kind) (x : Int) : Int :=
  match k with
  | Kind.int8 => Int.bmod x (2 ^ 8)
  | Kind.int16 => Int.bmod x (2 ^ 16)
  | Kind.int32 => Int.bmod x (2 ^ 32)
  | _ => x

/-- src lines 168-195: the coercion-and-assignment block of `manageFields`.
`pf` models `strconv.ParseFloat(value, 64)`.  Returns the (possibly
updated) field and the fatal error, if any.  The float-kind test mirrors
the source verbatim: lines 187-188 test `reflect.Float32` twice, so
`Kind.float64` is never matched and falls through to the silent branch. -/
def applyValue (pf : String → Option Float) (eTags : envTags) (f : Field)
    (value : String) : Field × Option String :=
  if f.canSet then
    if f.kind = Kind.string then
      ({ f with value := GoValue.str value }, none)
    else if f.kind = Kind.int ∨ f.kind = Kind.int8 ∨ f.kind = Kind.int32 ∨
        f.kind = Kind.int64 then
      match Atoi value with
      | some val => ({ f with value := GoValue.intv (setIntValue f.kind val) }, none)
      | none => (f, some ("Error converting field " ++ eTags.Name ++ " to int"))
    else if f.kind = Kind.bool then
      match ParseBool value with
      | some val => ({ f with value := GoValue.boolv val }, none)
      | none => (f, some ("Error converting field " ++ eTags.Name ++ " to bool"))
    else if f.kind = Kind.float32 ∨ f.kind = Kind.float32 then
      match pf value with
      | some val => ({ f with value := GoValue.floatv val }, none)
      | none => (f, some ("Error converting field " ++ eTags.Name ++ " to float"))
    else
      (f, none)
  else
    (f, none)

/-- src lines 162-200: the field loop of `manageFields`.  Returns the final
contents of the fields together with the returned error; on an error the
loop returns immediately, so the remaining fields are appended untouched. -/
def manageFields (pf : String → Option Float) (env : EnvSource)
    (props : Option PropsSource) (pfx : String) :
    List Field → List Field × Option String
  | [] => ([], none)
  | f :: rest =>
    let tagsRes := getTags f
    if tagsRes.2 = none then
      let eTags := tagsRes.1
      let r := getEnvValue eTags props env pfx
      if r.2.2 = true then
        let fr := applyValue pf eTags f r.1
        if fr.2 = none then
          let tail := manageFields pf env props pfx rest
          (fr.1 :: tail.1, tail.2)
        else
          (fr.1 :: rest, fr.2)
      else if r.2.1 ≠ none then
        (f :: rest, r.2.1)
      else
        let tail := manageFields pf env props pfx rest
        (f :: tail.1, tail.2)
    else
      -- dead branch: getTags never returns an error; were it to, the Go
      -- loop would skip the field and continue (src line 165)
      let tail := manageFields pf env props pfx rest
      (f :: tail.1, tail.2)

/-- The target argument of `manageFields`.  Go's `interface{}` value either
is a pointer to a struct, or it is not record-shaped (not a pointer, or a
pointer to a non-struct). -/
inductive Target where
  | ptrStruct : List Field → Target
  | notRecord : Target

/-- Observable outcome of a call: the final struct contents with the
returned error, or a runtime panic. -/
inductive Outcome where
  | ret : List Field → Option String → Outcome
  | panicked : String → Outcome

/-- src lines 157-161 wrapped around the loop: `reflect.ValueOf(envVar).Elem()`
panics when the argument is not a pointer (or interface), and
`e.Type().NumField()` panics when the pointee is not a struct; the code
contains no guard and no SchemaError, so a non-record target is a panic. -/
def manageFieldsTop (pf : String → Option Float) (env : EnvSource)
    (props : Option PropsSource) (pfx : String) : Target → Outcome
  | Target.ptrStruct fields =>
    let r := manageFields pf env props pfx fields
    Outcome.ret r.1 r.2
  | Target.notRecord =>
    Outcome.panicked "reflect: target is not a pointer to a struct"

/-- src lines 81-90, `loadVariables`: load the properties file, and on any
load error set `props = nil`; then run `manageFields`.  The result of
`properties.LoadFile(fileName)` is supplied by `loadFile`; `Except.error`
models a missing or unparseable file. -/
def loadVariables (pf : String → Option Float) (env : EnvSource)
    (loadFile : String → Except String PropsSource) (target : Target)
    (pfx fileName : String) : Outcome :=
  let props : Option PropsSource :=
    match loadFile fileName with
    | Except.ok p => some p
    | Except.error _ => none
  manageFieldsTop pf env props pfx target

/-! Concrete fields and sources used by witnesses and counterexamples. -/

def envEmpty : EnvSource := fun _ => none

def envW : EnvSource := fun n => if n = "APP_PORT" then some "8080" else none

def envW3 : EnvSource := fun n => if n = "APP_PORT" then some "8080" else some "junk"

def propsW : PropsSource := fun n => if n = "APP_PORT" then some "9090" else none

def envHost : EnvSource := fun n => if n = "Host" then some "example.com" else none

def et1 : envTags := { Name := "PORT", Critical := false, HasDefault := true, Default := "" }

def et2 : envTags := { Name := "PORT", Critical := false, HasDefault := false, Default := "" }

def etCritDef : envTags :=
  { Name := "Token", Critical := true, HasDefault := true, Default := "fallback" }

def fDefEmpty : Field :=
  { name := "Host", tag := { mvenv := none, crit := none, defv := some "" },
    kind := Kind.string, canSet := true, value := GoValue.zero }

def fEmptyOverride : Field :=
  { name := "Port", tag := { mvenv := some "", crit := none, defv := none },
    kind := Kind.int, canSet := true, value := GoValue.zero }

def fOverride : Field :=
  { name := "StringValue", tag := { mvenv := some "STRVAL", crit := none, defv := some "hello" },
    kind := Kind.string, canSet := true, value := GoValue.zero }

/-- C1: for every field the final string value is chosen by fixed source
priority with first hit winning and no merging — environment first,
otherwise an available properties source, otherwise a declared default
taken verbatim (the empty-string default included: `Default` is
unconstrained here, and a `def` tag value is copied verbatim into the
descriptor). -/
theorem env_wins_props_default_order (eTags : envTags) (env : EnvSource)
    (props : Option PropsSource) (pfx : String) :
    (∀ v, env (effectiveName pfx eTags.Name) = some v →
      getEnvValue eTags props env pfx = (v, none, true)) ∧
    (env (effectiveName pfx eTags.Name) = none →
      ∀ v, propsGet props (effectiveName pfx eTags.Name) = some v →
      getEnvValue eTags props env pfx = (v, none, true)) ∧
    (env (effectiveName pfx eTags.Name) = none →
      propsGet props (effectiveName pfx eTags.Name) = none →
      eTags.HasDefault = true →
      getEnvValue eTags props env pfx = (eTags.Default, none, true)) ∧
    (∀ f : Field, ∀ d, f.tag.defv = some d →
      (getTags f).1.HasDefault = true ∧ (getTags f).1.Default = d) := by
  refine ⟨?_, ?_, ?_, ?_⟩
  · intro v hv
    simp [getEnvValue, hv]
  · intro he v hp
    simp [getEnvValue, he, hp]
  · intro he hp hd
    simp [getEnvValue, he, hp, hd]
  · intro f d hd
    obtain ⟨n, ⟨mv, cr, dv⟩, k, cs, val⟩ := f
    cases hd
    cases mv <;> cases cr <;>
      simp [getTags, apply_ite envTags.HasDefault, apply_ite envTags.Default]

theorem env_wins_props_default_order_witness :
    getEnvValue et1 (some propsW) envW "APP" = ("8080", none, true) ∧
    getEnvValue et1 (some propsW) envEmpty "APP" = ("9090", none, true) ∧
    getEnvValue et1 none envEmpty "APP" = ("", none, true) ∧
    ((getTags fDefEmpty).1.HasDefault = true ∧ (getTags fDefEmpty).1.Default = "") :=
  ⟨(env_wins_props_default_order et1 envW (some propsW) "APP").1 "8080" (by decide),
   (env_wins_props_default_order et1 envEmpty (some propsW) "APP").2.1 (by decide) "9090"
     (by decide),
   (env_wins_props_default_order et1 envEmpty none "APP").2.2.1 (by decide) (by decide)
     (by decide),
   (env_wins_props_default_order et1 envEmpty none "APP").2.2.2 fDefEmpty "" (by decide)⟩

/-- C7 counterexample: a field whose `mvenv` override tag is present but
empty gets the empty string as its lookup name, so the lookup name is not
always non-empty as the claim states. -/
theorem empty_override_empty_lookup_name :
    fEmptyOverride.tag.mvenv = some "" ∧ (getTags fEmptyOverride).1.Name = "" :=
  ⟨rfl, rfl⟩

/-- C7 amended: the lookup name is the override value when the `mvenv` tag
is present and otherwise the field's declared name, copied verbatim with
no case normalization; it is non-empty provided the declared name is
non-empty and the override, when present, is non-empty (an explicitly
empty `mvenv:""` override yields an empty lookup name). -/
theorem lookup_name_from_override_or_field (f : Field) :
    (getTags f).1.Name = (match f.tag.mvenv with | some v => v | none => f.name) ∧
    (f.name ≠ "" → (∀ v, f.tag.mvenv = some v → v ≠ "") → (getTags f).1.Name ≠ "") := by
  obtain ⟨n, ⟨mv, cr, dv⟩, k, cs, val⟩ := f
  have hname : (getTags ⟨n, ⟨mv, cr, dv⟩, k, cs, val⟩).1.Name =
      (match mv with | some v => v | none => n) := by
    cases mv <;> cases cr <;> cases dv <;>
      simp [getTags, apply_ite envTags.Name]
  refine ⟨hname, ?_⟩
  intro h1 h2
  rw [hname]
  cases mv with
  | some v => exact h2 v rfl
  | none => exact h1

theorem lookup_name_from_override_or_field_witness :
    (getTags fOverride).1.Name = "STRVAL" ∧ (getTags fOverride).1.Name ≠ "" :=
  ⟨(lookup_name_from_override_or_field fOverride).1,
   (lookup_name_from_override_or_field fOverride).2 (by decide)
     (fun v hv => by injection hv with h; exact h ▸ (by decide : "STRVAL" ≠ ""))⟩

/-- C8: both sources are consulted exactly at the effective key, which is
the lookup name unchanged when the prefix is empty and otherwise the
prefix, an underscore and the lookup name concatenated in that order. -/
theorem effective_key_composition (eTags : envTags) (pfx : String)
    (env env' : EnvSource) (props props' : Option PropsSource)
    (henv : env (effectiveName pfx eTags.Name) = env' (effectiveName pfx eTags.Name))
    (hprops : propsGet props (effectiveName pfx eTags.Name)
      = propsGet props' (effectiveName pfx eTags.Name)) :
    getEnvValue eTags props env pfx = getEnvValue eTags props' env' pfx ∧
    effectiveName "" eTags.Name = eTags.Name ∧
    (pfx ≠ "" → effectiveName pfx eTags.Name = pfx ++ "_" ++ eTags.Name) := by
  refine ⟨?_, by simp [effectiveName], fun h => by simp [effectiveName, h]⟩
  simp only [getEnvValue]
  rw [henv, hprops]

theorem effective_key_composition_witness :
    getEnvValue et2 none envW "APP" = getEnvValue et2 none envW3 "APP" ∧
    effectiveName "" "PORT" = "PORT" ∧
    effectiveName "APP" "PORT" = "APP_PORT" :=
  let h := effective_key_composition et2 "APP" envW envW3 none none (by decide) (by decide)
  ⟨h.1, h.2.1, h.2.2 (by decide)⟩

/-- C10: a declared default shadows the mandatory check — whenever
`HasDefault` holds, `getEnvValue` produces a value (`ok = true`) and never
the missing-critical-field error, whatever `Critical` and the sources
are. -/
theorem default_shadows_critical (eTags : envTags) (env : EnvSource)
    (props : Option PropsSource) (pfx : String)
    (hdef : eTags.HasDefault = true) :
    (getEnvValue eTags props env pfx).2.1 = none ∧
    (getEnvValue eTags props env pfx).2.2 = true := by
  cases henv : env (effectiveName pfx eTags.Name) with
  | some v => simp [getEnvValue, henv]
  | none =>
    cases hp : propsGet props (effectiveName pfx eTags.Name) with
    | some v => simp [getEnvValue, henv, hp]
    | none => simp [getEnvValue, henv, hp, hdef]

theorem default_shadows_critical_witness :
    (getEnvValue etCritDef none envEmpty "").2.1 = none ∧
    (getEnvValue etCritDef none envEmpty "").2.2 = true :=
  default_shadows_critical etCritDef envEmpty none "" (by decide)

def wHost : Field :=
  { name := "Host", tag := { mvenv := none, crit := none, defv := none },
    kind := Kind.string, canSet := true, value := GoValue.zero }

def wCrit : Field :=
  { name := "Token", tag := { mvenv := none, crit := some "true", defv := none },
    kind := Kind.string, canSet := true, value := GoValue.zero }

def wBool : Field :=
  { name := "Debug", tag := { mvenv := none, crit := none, defv := none },
    kind := Kind.bool, canSet := true, value := GoValue.zero }

/-- The loop distributes over a successfully processed first segment: when
the fields of `xs` all resolve without error, processing `xs ++ ys`
processes `xs` and then continues into `ys`. -/
theorem manageFields_append_ok (pf : String → Option Float) (env : EnvSource)
    (props : Option PropsSource) (pfx : String) (xs ys : List Field)
    (h : (manageFields pf env props pfx xs).2 = none) :
    manageFields pf env props pfx (xs ++ ys) =
      ((manageFields pf env props pfx xs).1 ++ (manageFields pf env props pfx ys).1,
        (manageFields pf env props pfx ys).2) := by
  induction xs with
  | nil => simp [manageFields]
  | cons f rest ih =>
    have htag : (getTags f).2 = none := rfl
    by_cases hok : (getEnvValue (getTags f).1 props env pfx).2.2 = true
    · by_cases hfr :
        (applyValue pf (getTags f).1 f (getEnvValue (getTags f).1 props env pfx).1).2 = none
      · simp only [List.cons_append, manageFields, htag, hok, hfr, reduceIte,
          List.append_eq] at h ⊢
        rw [ih h]
      · simp [manageFields, htag, hok, hfr] at h
    · by_cases herr : (getEnvValue (getTags f).1 props env pfx).2.1 = none
      · simp only [List.cons_append, manageFields, htag, hok, herr, reduceIte,
          List.append_eq, Bool.not_eq_true, ne_eq, not_true_eq_false, if_false,
          Bool.false_eq_true] at h ⊢
        rw [ih h]
      · simp [manageFields, htag, hok, herr] at h

/-- C2: a mandatory field that is absent from the environment and the
properties source and has no default makes the call fail with the
missing-critical-field error naming the effective (prefixed) lookup name;
the loop returns immediately, the fields after it keep their previous
contents, and the fields already processed before it keep their new
contents (no rollback). -/
theorem missing_critical_fails_fast (pf : String → Option Float) (env : EnvSource)
    (props : Option PropsSource) (pfx : String) (pre post : List Field) (f : Field)
    (hpre : (manageFields pf env props pfx pre).2 = none)
    (hcrit : (getTags f).1.Critical = true)
    (hdef : (getTags f).1.HasDefault = false)
    (henv : env (effectiveName pfx (getTags f).1.Name) = none)
    (hprops : propsGet props (effectiveName pfx (getTags f).1.Name) = none) :
    manageFields pf env props pfx (pre ++ f :: post) =
      ((manageFields pf env props pfx pre).1 ++ f :: post,
        some ("Critical Config field " ++ effectiveName pfx (getTags f).1.Name
          ++ " missing from the environment")) := by
  have hval : getEnvValue (getTags f).1 props env pfx =
      ("", some ("Critical Config field " ++ effectiveName pfx (getTags f).1.Name
        ++ " missing from the environment"), false) := by
    simp [getEnvValue, henv, hprops, hdef, hcrit]
  have htag : (getTags f).2 = none := rfl
  have hstep : manageFields pf env props pfx (f :: post) =
      (f :: post, some ("Critical Config field " ++ effectiveName pfx (getTags f).1.Name
        ++ " missing from the environment")) := by
    simp [manageFields, htag, hval]
  rw [manageFields_append_ok pf env props pfx pre (f :: post) hpre, hstep]

theorem missing_critical_fails_fast_witness :
    manageFields (fun _ => none) envHost none "" [wHost, wCrit, wBool] =
      ([{ wHost with value := GoValue.str "example.com" }, wCrit, wBool],
        some "Critical Config field Token missing from the environment") :=
  missing_critical_fails_fast (fun _ => none) envHost none "" [wHost] [wBool] wCrit
    rfl rfl rfl rfl rfl

def fSpeed : Field :=
  { name := "Speed", tag := { mvenv := none, crit := none, defv := none },
    kind := Kind.float64, canSet := true, value := GoValue.zero }

/-- C3 is a code bug: the kind test of the float branch (src lines 187-188)
reads `reflect.Float32` in both disjuncts, so a float64 field — the Float
kind the spec describes — is silently skipped whatever the parser does:
a produced value is never parsed or written, and invalid input raises no
error, contradicting the claimed float coercion. -/
theorem float64_field_silently_skipped (pf : String → Option Float) :
    manageFields pf (fun _ => some "abc") none "" [fSpeed] = ([fSpeed], none) ∧
    manageFields pf (fun _ => some "3.5") none "" [fSpeed] = ([fSpeed], none) :=
  ⟨rfl, rfl⟩

def fCount : Field :=
  { name := "Count", tag := { mvenv := none, crit := none, defv := none },
    kind := Kind.int16, canSet := true, value := GoValue.zero }

def fBig : Field :=
  { name := "Big", tag := { mvenv := none, crit := none, defv := none },
    kind := Kind.int64, canSet := true, value := GoValue.zero }

/-- C4 is a code bug: the integer kind test (src lines 172-175) lists
reflect.Int, Int8, Int32 and Int64 but omits Int16, so an int16 field is
silently skipped — a produced value is never parsed or written and
invalid input raises no error — while the other signed widths are parsed
(valid input is written, non-numeric input fails with the int coercion
error naming the field). -/
theorem int16_field_silently_skipped (pf : String → Option Float) :
    manageFields pf (fun _ => some "5") none "" [fCount] = ([fCount], none) ∧
    manageFields pf (fun _ => some "abc") none "" [fCount] = ([fCount], none) ∧
    manageFields pf (fun _ => some "5") none "" [fBig] =
      ([{ fBig with value := GoValue.intv 5 }], none) ∧
    manageFields pf (fun _ => some "abc") none "" [fBig] =
      ([fBig], some "Error converting field Big to int") :=
  ⟨rfl, rfl, rfl, rfl⟩

def fFlag : Field :=
  { name := "Flag", tag := { mvenv := none, crit := none, defv := none },
    kind := Kind.bool, canSet := true, value := GoValue.zero }

/-- C5 counterexample: `"tRue"` is a casing of `"true"`, yet the call fails
with the bool coercion error instead of parsing it to true — Go's
strconv.ParseBool is not case-insensitive beyond the lowercase, UPPERCASE
and Title-case forms. -/
theorem mixed_case_bool_rejected :
    ParseBool "tRue" = none ∧
    manageFields (fun _ => none) (fun _ => some "tRue") none "" [fFlag] =
      ([fFlag], some "Error converting field Flag to bool") :=
  ⟨rfl, rfl⟩

/-- C5 amended: a produced value for a settable Boolean-kind field is
parsed by strconv.ParseBool, which accepts exactly the strings "1", "t",
"T", "TRUE", "true", "True" (giving true) and "0", "f", "F", "FALSE",
"false", "False" (giving false) — not every casing of these forms — and
any other input fails the call with the bool coercion error naming the
field. -/
theorem bool_coercion_exact_forms (pf : String → Option Float) (env : EnvSource)
    (props : Option PropsSource) (pfx : String) (f : Field) (v : String)
    (hk : f.kind = Kind.bool) (hs : f.canSet = true)
    (henv : env (effectiveName pfx (getTags f).1.Name) = some v) :
    (∀ b, ParseBool v = some b →
      manageFields pf env props pfx [f] = ([{ f with value := GoValue.boolv b }], none)) ∧
    (ParseBool v = none →
      manageFields pf env props pfx [f] =
        ([f], some ("Error converting field " ++ (getTags f).1.Name ++ " to bool"))) ∧
    (∀ s, ParseBool s = some true ↔
      (s = "1" ∨ s = "t" ∨ s = "T" ∨ s = "TRUE" ∨ s = "true" ∨ s = "True")) ∧
    (∀ s, ParseBool s = some false ↔
      (s = "0" ∨ s = "f" ∨ s = "F" ∨ s = "FALSE" ∨ s = "false" ∨ s = "False")) := by
  have htag : (getTags f).2 = none := rfl
  have hval : getEnvValue (getTags f).1 props env pfx = (v, none, true) := by
    simp [getEnvValue, henv]
  refine ⟨?_, ?_, ?_, ?_⟩
  · intro b hb
    simp [manageFields, htag, hval, applyValue, hs, hk, hb]
  · intro hb
    simp [manageFields, htag, hval, applyValue, hs, hk, hb]
  · intro s
    by_cases h1 : s = "1" ∨ s = "t" ∨ s = "T" ∨ s = "TRUE" ∨ s = "true" ∨ s = "True"
    · rcases h1 with rfl | rfl | rfl | rfl | rfl | rfl <;> decide
    · by_cases h2 : s = "0" ∨ s = "f" ∨ s = "F" ∨ s = "FALSE" ∨ s = "false" ∨ s = "False"
      · rcases h2 with rfl | rfl | rfl | rfl | rfl | rfl <;> decide
      · simp [ParseBool, h1, h2]
  · intro s
    by_cases h1 : s = "1" ∨ s = "t" ∨ s = "T" ∨ s = "TRUE" ∨ s = "true" ∨ s = "True"
    · rcases h1 with rfl | rfl | rfl | rfl | rfl | rfl <;> decide
    · by_cases h2 : s = "0" ∨ s = "f" ∨ s = "F" ∨ s = "FALSE" ∨ s = "false" ∨ s = "False"
      · rcases h2 with rfl | rfl | rfl | rfl | rfl | rfl <;> decide
      · simp [ParseBool, h1, h2]

theorem bool_coercion_exact_forms_witness :
    manageFields (fun _ => none) (fun _ => some "T") none "" [fFlag] =
      ([{ fFlag with value := GoValue.boolv true }], none) :=
  (bool_coercion_exact_forms (fun _ => none) (fun _ => some "T") none "" fFlag "T"
    rfl rfl rfl).1 true rfl

/-- C6 counterexample: a non-record-shaped target makes the call panic (the
reflect calls at src lines 159-162 have no guard); the outcome is a crash,
not an error return, and no SchemaError exists anywhere in the code. -/
theorem non_record_target_not_an_error :
    manageFieldsTop (fun _ => none) envEmpty none "" Target.notRecord =
      Outcome.panicked "reflect: target is not a pointer to a struct" :=
  rfl

/-- C6 amended: a target that is not a pointer to a struct makes the call
panic (crash) rather than return any error value; schema extraction
itself performs no I/O and has no failure mode at all — `getTags` always
returns a nil error. -/
theorem non_record_target_panics (pf : String → Option Float) (env : EnvSource)
    (props : Option PropsSource) (pfx : String) (f : Field) :
    manageFieldsTop pf env props pfx Target.notRecord =
      Outcome.panicked "reflect: target is not a pointer to a struct" ∧
    (getTags f).2 = none :=
  ⟨rfl, rfl⟩

/-- C9: when loading the properties file fails, `loadVariables` proceeds
exactly as if no properties source existed — the outcome is the
`manageFields` run with a nil source, so resolution uses only environment
and defaults and no properties-related error reaches the caller. -/
theorem props_load_failure_degrades (pf : String → Option Float) (env : EnvSource)
    (loadFile : String → Except String PropsSource) (target : Target)
    (pfx fileName e : String)
    (h : loadFile fileName = Except.error e) :
    loadVariables pf env loadFile target pfx fileName =
      manageFieldsTop pf env none pfx target := by
  simp [loadVariables, h]

theorem props_load_failure_degrades_witness :
    loadVariables (fun _ => none) envHost
      (fun _ => Except.error "open app.properties: no such file or directory")
      (Target.ptrStruct [wHost]) "" "app.properties" =
      manageFieldsTop (fun _ => none) envHost none "" (Target.ptrStruct [wHost]) :=
  props_load_failure_degrades (fun _ => none) envHost
    (fun _ => Except.error "open app.properties: no such file or directory")
    (Target.ptrStruct [wHost]) "" "app.properties"
    "open app.properties: no such file or directory" rfl

end Mvconfig
